import Mathlib

/-!
Shallow embedding of the authentication subsystem of `nodeapi-example`
(`src/utils.js`, `src/models/SessionModel.js`, `src/models/UserModel.js`,
`src/routes/user-auth.js`) together with proofs of the specification claims.

JavaScript strings are modelled as `List Char`, byte buffers as `List Nat`
(each entry `< 256`), timestamps (`Date` values compared via `<=`) as `Int`
milliseconds.  External library primitives (the AES-256-CBC cipher, PBKDF2,
base64 codec, `JSON.stringify`/`JSON.parse`, `jwt.sign`) are parameters of
the embedded functions; the repository's own logic (hex framing,
`:`-splitting, guards, try/catch normalisation to `null`, database-row
filtering, route control flow) is embedded concretely.
-/

namespace NodeApi

/-! ## Hex encoding (Node `Buffer.toString('hex')` / `Buffer.from(s,'hex')`) -/

/-- Hex digit for a value `< 16` (Node emits lowercase hex): `0`-`9` are
code points 48-57, `a`-`f` are 97-102. -/
def hexDigit (n : Nat) : Char :=
  if n < 10 then Char.ofNat (48 + n)
  else if n < 16 then Char.ofNat (87 + n)
  else '0'

/-- Value of a hex digit character, accepting both cases; `none` if not hex.
Models Node's per-character hex acceptance. -/
def hexDigitVal (c : Char) : Option Nat :=
  if c = '0' then some 0 else if c = '1' then some 1
  else if c = '2' then some 2 else if c = '3' then some 3
  else if c = '4' then some 4 else if c = '5' then some 5
  else if c = '6' then some 6 else if c = '7' then some 7
  else if c = '8' then some 8 else if c = '9' then some 9
  else if c = 'a' ∨ c = 'A' then some 10
  else if c = 'b' ∨ c = 'B' then some 11
  else if c = 'c' ∨ c = 'C' then some 12
  else if c = 'd' ∨ c = 'D' then some 13
  else if c = 'e' ∨ c = 'E' then some 14
  else if c = 'f' ∨ c = 'F' then some 15
  else none

/-- Node `Buffer.toString('hex')`: two lowercase hex digits per byte. -/
def hexEncode : List Nat → List Char
  | [] => []
  | b :: rest => hexDigit (b / 16) :: hexDigit (b % 16) :: hexEncode rest

/-- Node `Buffer.from(s, 'hex')`: Node decodes hex pairs left to right and stops
at the first character that is not a hex digit (a trailing unpaired digit is
dropped). -/
def hexDecodeLenient : List Char → List Nat
  | c1 :: c2 :: rest =>
    match hexDigitVal c1, hexDigitVal c2 with
    | some a, some b => (a * 16 + b) :: hexDecodeLenient rest
    | _, _ => []
  | _ => []

/-! ## `String.prototype.split(':')` -/

/-- JS `s.split(':')` for the one-character separator `':'`:
`"".split(':') = ['']`, separators at the ends produce empty segments. -/
def splitOnColon : List Char → List (List Char)
  | [] => [[]]
  | c :: rest =>
    if c = ':' then [] :: splitOnColon rest
    else
      match splitOnColon rest with
      | [] => [[c]]
      | p :: ps => (c :: p) :: ps

/-! ## Symmetric session encryption (`src/utils.js` `encrypt`/`decrypt`)

The AES-256-CBC primitive (`createCipheriv`/`createDecipheriv` with
`update`/`final`, utf8 plaintext side) is a library primitive, modelled as a
pair of parameter functions; encryption may throw (`Option` result, the
`try/catch` fallback of `encrypt`), decryption may throw on bad padding
(`Option` result, normalised to `null` by `decrypt`'s `try/catch`). -/

/-- Model of the `aes-256-cbc` cipher calls in `encrypt`/`decrypt`:
`enc key iv text` is `cipher.update(text,'utf8','hex') + cipher.final('hex')`
viewed as raw ciphertext bytes (`none` models a thrown error), and
`dec key iv ct` is `decipher.update(ct,'hex','utf8') + decipher.final('utf8')`
(`none` models a thrown error, e.g. bad padding). -/
structure CipherModel where
  enc : List Nat → List Nat → List Char → Option (List Nat)
  dec : List Nat → List Nat → List Nat → Option (List Char)

/-- Function `encrypt(payload)` from `src/utils.js`: serialize the payload
(`JSON.stringify`, the parameter `ser`), derive the key (the parameter
`key`, `scryptSync(SESSION_SECRET,'salt',32)`), draw a fresh IV (the
parameter `iv`, `randomBytes(16)`), cipher, and frame as
`ivHex ++ ":" ++ ciphertextHex`.  If the cipher call throws, the `catch`
block returns `Buffer.from(text).toString('base64')` (the parameter
`b64enc`) instead: a base64 envelope of the plaintext JSON. -/
def encrypt {α : Type} (c : CipherModel) (ser : α → List Char)
    (b64enc : List Char → List Char) (key iv : List Nat) (payload : α) : List Char :=
  let text := ser payload
  match c.enc key iv text with
  | some ct => hexEncode iv ++ ':' :: hexEncode ct
  | none => b64enc text

/-- Function `decrypt(encryptedText)` from `src/utils.js`.  New format (input contains
`':'`): split on `':'`, use segments 0 and 1 as `ivHex` and `encrypted`,
return `null` if either is falsy (empty/missing); decode the IV leniently
(`Buffer.from(ivHex,'hex')`); `createDecipheriv` throws unless the IV is 16
bytes (caught, `null`); decipher and `JSON.parse` (the parameter `deser`,
`none` for a parse failure).  Legacy format (no `':'`): base64-decode the
whole input (`Buffer.from(s,'base64').toString('utf8')`, the parameter
`b64dec`) and `JSON.parse` it.  Any failure anywhere is caught and
normalised to `null` (`none`). -/
def decrypt {α : Type} (c : CipherModel) (deser : List Char → Option α)
    (b64dec : List Char → List Char) (key : List Nat) (s : List Char) : Option α :=
  if s.contains ':' then
    let parts := splitOnColon s
    let ivHex := parts.headD []
    let encHex := (parts.drop 1).headD []
    if ivHex = [] ∨ encHex = [] then none
    else
      let iv := hexDecodeLenient ivHex
      if iv.length = 16 then
        match c.dec key iv (hexDecodeLenient encHex) with
        | some text => deser text
        | none => none
      else none
  else
    deser (b64dec s)

/-! ## Password hashing (`src/utils.js` `hashPassword`/`verifyPassword`)

`crypto.pbkdf2Sync(password, salt, 10000, 64, 'sha512').toString('hex')` is
a library primitive, modelled as a parameter `pbkdf2 : password → salt →
hex hash`; `crypto.randomBytes(16).toString('hex')` makes the salt a
parameter of `hashPassword`. -/

/-- Function `hashPassword(password)`: generate a random salt (the parameter `salt`)
and derive the hash from `(password, salt)`. -/
def hashPassword (pbkdf2 : List Char → List Char → List Char)
    (salt password : List Char) : List Char × List Char :=
  (pbkdf2 password salt, salt)

/-- Function `verifyPassword(password, storedHash, storedSalt)`: recompute the
derivation with the stored salt and compare to the stored hash. -/
def verifyPassword (pbkdf2 : List Char → List Char → List Char)
    (password storedHash storedSalt : List Char) : Bool :=
  pbkdf2 password storedSalt = storedHash

/-! ## Database rows and the session/user stores

The `sessions` table (`SessionModel`, Knex over PostgreSQL) is modelled as a
list of rows plus the id counter of the `increments('id')` column; `.where`
filters, `.first()` takes the first match, `.del()` removes the matching
rows and returns their count. -/

/-- A row of the `sessions` table: `{id, user_id, expires_at}`
(timestamps in ms). -/
structure SessionRow where
  id : Nat
  user_id : Nat
  expires_at : Int
  deriving DecidableEq, Repr

/-- A row of the `users` table (the columns the auth routes read). -/
structure UserRow where
  id : Nat
  email : List Char
  first_name : List Char
  last_name : List Char
  password_hash : List Char
  salt : List Char
  deriving DecidableEq, Repr

/-- Database state seen by the auth routes: both tables and the next
auto-increment session id. -/
structure Store where
  sessions : List SessionRow
  users : List UserRow
  nextSessionId : Nat
  deriving DecidableEq, Repr

/-- Method `SessionModel.findById(id)`: `db("sessions").where({id}).first()`,
`null` when absent. -/
def sessionFindById (rows : List SessionRow) (id : Nat) : Option SessionRow :=
  rows.find? (fun r => r.id = id)

/-- Method `SessionModel.deleteById(id)`: `db("sessions").where({id}).del()` —
the remaining rows and the deleted count. -/
def sessionDeleteById (rows : List SessionRow) (id : Nat) :
    List SessionRow × Nat :=
  (rows.filter (fun r => ¬ r.id = id), (rows.filter (fun r => r.id = id)).length)

/-- Method `SessionModel.deleteExpired()`:
`db("sessions").where("expires_at", "<", new Date()).del()` — the remaining
rows and the deleted count. -/
def deleteExpired (rows : List SessionRow) (now : Int) :
    List SessionRow × Nat :=
  (rows.filter (fun r => ¬ r.expires_at < now),
   (rows.filter (fun r => r.expires_at < now)).length)

/-- Method `SessionModel.create(userId, expiresAt)`: insert a row with the next
auto-increment id and return it. -/
def sessionCreate (st : Store) (userId : Nat) (expiresAt : Int) :
    SessionRow × Store :=
  let row : SessionRow := ⟨st.nextSessionId, userId, expiresAt⟩
  (row, { st with sessions := st.sessions ++ [row],
                  nextSessionId := st.nextSessionId + 1 })

/-- Method `UserModel.findById(id)`: `db("users").where({id}).first()`. -/
def userFindById (rows : List UserRow) (id : Nat) : Option UserRow :=
  rows.find? (fun u => u.id = id)

/-- Method `UserModel.findByEmail(email)`: `db("users").where({email}).first()`. -/
def userFindByEmail (rows : List UserRow) (email : List Char) : Option UserRow :=
  rows.find? (fun u => u.email = email)

/-! ## The auth routes (`src/routes/user-auth.js`)

Each route is modelled after its middleware (`validateApiKey`) and body
parsing have succeeded; `decrypt` of the session envelope appears as a
parameter function `dec : List Char → Option SessionPayload` (the composite
of `decrypt` with the destructuring `const {sessionId, expiresAt} = ...`). -/

/-- The plaintext carried by the session envelope:
`{sessionId, expiresAt}` (`expiresAt` as a timestamp). -/
structure SessionPayload where
  sessionId : Nat
  expiresAt : Int
  deriving DecidableEq, Repr

/-- The safe user projection returned by `verify-session`:
`{id, email, first_name, last_name}` — no password hash, no salt. -/
structure SafeUser where
  id : Nat
  email : List Char
  first_name : List Char
  last_name : List Char
  deriving DecidableEq, Repr

/-- Outcome of `POST /user-auth/verify-session`. -/
inductive VerifyResult where
  | invalidSession
  | sessionExpired
  | sessionNotFound
  | userNotFound
  | ok (user : SafeUser) (expiresAt : Int)
  deriving DecidableEq, Repr

/-- The `verify-session` route body (after the `!session` 400 guard):
decrypt; `null` → 401 "Invalid session"; embedded `expiresAt <= now` → 401
"Session expired" (before any DB access); look up the session row; absent →
401 "Session not found"; row's `expires_at <= now` → delete the row and 401
"Session expired"; look up the user; absent → 401 "User not found"; else
200 with the safe projection and the row's `expires_at`. -/
def verifySession (dec : List Char → Option SessionPayload) (st : Store)
    (now : Int) (env : List Char) : VerifyResult × Store :=
  match dec env with
  | none => (.invalidSession, st)
  | some p =>
    if p.expiresAt ≤ now then (.sessionExpired, st)
    else
      match sessionFindById st.sessions p.sessionId with
      | none => (.sessionNotFound, st)
      | some row =>
        if row.expires_at ≤ now then
          (.sessionExpired,
           { st with sessions := (sessionDeleteById st.sessions p.sessionId).1 })
        else
          match userFindById st.users row.user_id with
          | none => (.userNotFound, st)
          | some u =>
            (.ok ⟨u.id, u.email, u.first_name, u.last_name⟩ row.expires_at, st)

/-- Outcome of `POST /user-auth/logout` (after the `!session` 400 guard):
always the 200 "Logged out successfully" response. -/
inductive LogoutResult where
  | success
  deriving DecidableEq, Repr

/-- The `logout` route body: decrypt; `null` → respond success untouched;
else `SessionModel.deleteById(sessionId)` and respond success either way. -/
def logout (dec : List Char → Option SessionPayload) (st : Store)
    (env : List Char) : LogoutResult × Store :=
  match dec env with
  | none => (.success, st)
  | some p =>
    (.success, { st with sessions := (sessionDeleteById st.sessions p.sessionId).1 })

/-- The success body of `POST /user-auth` (login): safe user data (`{id}`
only), the JWT, the encrypted session envelope and its expiry. -/
structure LoginResponse where
  userId : Nat
  token : List Char
  session : List Char
  sessionExpires : Int
  deriving DecidableEq, Repr

/-- Outcome of `POST /user-auth` (login). -/
inductive LoginResult where
  | badRequest
  | userNotFound
  | invalidPassword
  | ok (resp : LoginResponse)
  deriving DecidableEq, Repr

/-- Seven days in milliseconds: the session lifetime fixed by the login
route (`7 * 24 * 60 * 60 * 1000`). -/
def sevenDaysMs : Int := 7 * 24 * 60 * 60 * 1000

/-- The login route body: missing email/password → 400; user lookup by
email → 404; `verifyPassword` → 401; else sign a JWT over `{id: user.id}`
(the parameter `jwtSign`), create a session expiring `now + 7 days`,
encrypt `{sessionId, expiresAt}` and return `{user: {id}, token, session,
sessionExpires}`. -/
def login (pbkdf2 : List Char → List Char → List Char)
    (jwtSign : Nat → List Char) (c : CipherModel)
    (ser : SessionPayload → List Char) (b64enc : List Char → List Char)
    (key iv : List Nat) (st : Store) (now : Int)
    (email password : List Char) : LoginResult × Store :=
  if email = [] ∨ password = [] then (.badRequest, st)
  else
    match userFindByEmail st.users email with
    | none => (.userNotFound, st)
    | some user =>
      if verifyPassword pbkdf2 password user.password_hash user.salt then
        let expiresAt := now + sevenDaysMs
        let (row, st') := sessionCreate st user.id expiresAt
        let env := encrypt c ser b64enc key iv ⟨row.id, expiresAt⟩
        (.ok ⟨user.id, jwtSign user.id, env, expiresAt⟩, st')
      else (.invalidPassword, st)

/-! ## Concrete instances used by the witnesses -/

/-- A concrete invertible cipher instance for witnesses: code points as
bytes. -/
def wCipher : CipherModel :=
  ⟨fun _ _ t => some (t.map Char.toNat), fun _ _ bs => some (bs.map Char.ofNat)⟩

/-- A cipher instance whose encryption always throws, for the fallback
witness. -/
def wFailCipher : CipherModel := ⟨fun _ _ _ => none, fun _ _ _ => none⟩

/-- A concrete 16-byte IV for witnesses. -/
def wIv : List Nat := List.replicate 16 7

/-- A concrete serializer instance for witnesses (payload type `Nat`). -/
def wSer : Nat → List Char := fun _ => ['p']

/-- The matching deserializer instance: accepts exactly `wSer`'s output. -/
def wDeser : List Char → Option Nat :=
  fun t => if t = ['p'] then some 0 else none

/-- A concrete user row for witnesses (`wPbkdf2 ['w'] ['s'] = ['w','s']`
matches the stored hash). -/
def wUser : UserRow := ⟨1, ['u'], ['f'], ['l'], ['w', 's'], ['s']⟩

/-- A concrete unexpired session row (owner `wUser`, expiry 100). -/
def wRow : SessionRow := ⟨5, 1, 100⟩

/-- A concrete store holding `wRow` and `wUser`. -/
def wStore : Store := ⟨[wRow], [wUser], 6⟩

/-- A concrete envelope decoder for the route witnesses: the envelope
`['e']` decodes to `{sessionId := 5, expiresAt := 100}`. -/
def wDec : List Char → Option SessionPayload :=
  fun s => if s = ['e'] then some ⟨5, 100⟩ else none

/-- A concrete PBKDF2 instance for witnesses. -/
def wPbkdf2 : List Char → List Char → List Char :=
  fun password salt => password ++ salt

/-- A concrete JWT signer instance for witnesses. -/
def wJwt : Nat → List Char := fun _ => ['t']

/-- A concrete session-payload serializer instance for witnesses. -/
def wSerP : SessionPayload → List Char := fun _ => ['p']

/-- A session row whose expiry equals the sweep instant, for the C4
counterexample. -/
def c4Row : SessionRow := ⟨1, 1, 5⟩

/-- The login response produced by the C9 witness scenario. -/
def wResp : LoginResponse :=
  ⟨1, ['t'], hexEncode wIv ++ ':' :: hexEncode [112], sevenDaysMs⟩

/-- The store after the C9 witness login. -/
def wStAfter : Store := ⟨[wRow, ⟨6, 1, sevenDaysMs⟩], [wUser], 7⟩

end NodeApi

namespace NodeApi

/-! ## Lemmas about the codecs and the splitter -/

theorem hexDigitVal_hexDigit {n : Nat} (h : n < 16) :
    hexDigitVal (hexDigit n) = some n := by
  interval_cases n <;> decide

theorem hexDecodeLenient_hexEncode {bs : List Nat}
    (h : ∀ b ∈ bs, b < 256) : hexDecodeLenient (hexEncode bs) = bs := by
  induction bs with
  | nil => rfl
  | cons b rest ih =>
    have hb : b < 256 := h b (List.mem_cons_self b rest)
    have h1 : b / 16 < 16 := Nat.div_lt_of_lt_mul hb
    have h2 : b % 16 < 16 := Nat.mod_lt _ (by omega)
    simp only [hexEncode, hexDecodeLenient, hexDigitVal_hexDigit h1,
      hexDigitVal_hexDigit h2]
    rw [ih fun x hx => h x (List.mem_cons_of_mem _ hx)]
    congr 1
    omega

theorem hexDigit_ne_colon {n : Nat} : hexDigit n ≠ ':' := by
  by_cases h : n < 16
  · interval_cases n <;> decide
  · have h10 : ¬ n < 10 := by omega
    unfold hexDigit
    rw [if_neg h10, if_neg h]
    decide

theorem not_mem_colon_hexEncode (bs : List Nat) : ':' ∉ hexEncode bs := by
  induction bs with
  | nil => simp [hexEncode]
  | cons b rest ih =>
    simp only [hexEncode, List.mem_cons]
    push_neg
    exact ⟨fun h => hexDigit_ne_colon h.symm, fun h => hexDigit_ne_colon h.symm, ih⟩

theorem hexEncode_ne_nil {bs : List Nat} (h : bs ≠ []) : hexEncode bs ≠ [] := by
  cases bs with
  | nil => exact absurd rfl h
  | cons b rest => simp [hexEncode]

theorem splitOnColon_ne_nil (s : List Char) : splitOnColon s ≠ [] := by
  induction s with
  | nil => simp [splitOnColon]
  | cons c rest ih =>
    simp only [splitOnColon]
    by_cases hc : c = ':'
    · simp [hc]
    · simp only [if_neg hc]
      cases hsp : splitOnColon rest with
      | nil => simp
      | cons p ps => simp

theorem splitOnColon_no_colon {s : List Char} (h : ':' ∉ s) :
    splitOnColon s = [s] := by
  induction s with
  | nil => rfl
  | cons c rest ih =>
    have hc : c ≠ ':' := fun hc => h (hc ▸ List.mem_cons_self c rest)
    have hr : ':' ∉ rest := fun hr => h (List.mem_cons_of_mem _ hr)
    simp [splitOnColon, hc, ih hr]

theorem splitOnColon_append_colon {a : List Char} (b : List Char)
    (h : ':' ∉ a) : splitOnColon (a ++ ':' :: b) = a :: splitOnColon b := by
  induction a with
  | nil => simp [splitOnColon]
  | cons c rest ih =>
    have hc : c ≠ ':' := fun hc => h (hc ▸ List.mem_cons_self c rest)
    have hr : ':' ∉ rest := fun hr => h (List.mem_cons_of_mem _ hr)
    show splitOnColon (c :: (rest ++ ':' :: b)) = _
    simp only [splitOnColon, if_neg hc, ih hr]

theorem contains_colon_append (a b : List Char) :
    (a ++ ':' :: b).contains ':' = true := by
  simp [List.contains_eq_any_beq]

/-! ## Claim theorems -/

/-- C1: for every JSON-serializable payload `x`, `decrypt(encrypt(x)) = x`:
encrypting with the server secret and decrypting the resulting envelope
yields exactly `x`.  The hypotheses are the documented laws of the external
primitives at this call: JSON round-trip (`hde`), a 16-byte random IV
(`hivlen`, `hivb`), AES-CBC inversion with nonempty byte ciphertext
(`hcipher`) when the cipher call succeeds, and base64 round-trip with a
colon-free alphabet (`hb64`) when `encrypt` fell back to base64. -/
theorem decrypt_encrypt_roundtrip {α : Type} (c : CipherModel)
    (ser : α → List Char) (deser : List Char → Option α)
    (b64enc b64dec : List Char → List Char) (key iv : List Nat) (x : α)
    (hde : deser (ser x) = some x)
    (hivlen : iv.length = 16) (hivb : ∀ b ∈ iv, b < 256)
    (hcipher : ∀ ct, c.enc key iv (ser x) = some ct →
      c.dec key iv ct = some (ser x) ∧ ct ≠ [] ∧ ∀ b ∈ ct, b < 256)
    (hb64 : c.enc key iv (ser x) = none →
      b64dec (b64enc (ser x)) = ser x ∧ (b64enc (ser x)).contains ':' = false) :
    decrypt c deser b64dec key (encrypt c ser b64enc key iv x) = some x := by
  cases henc : c.enc key iv (ser x) with
  | none =>
    obtain ⟨hrt, hnc⟩ := hb64 henc
    have hE : encrypt c ser b64enc key iv x = b64enc (ser x) := by
      simp only [encrypt, henc]
    rw [hE]
    simp only [decrypt, hnc, Bool.false_eq_true, if_false, hrt, hde]
  | some ct =>
    obtain ⟨hdec, hne, hbs⟩ := hcipher ct henc
    have hE : encrypt c ser b64enc key iv x = hexEncode iv ++ ':' :: hexEncode ct := by
      simp only [encrypt, henc]
    rw [hE]
    have hiv0 : iv ≠ [] := by intro h; rw [h] at hivlen; simp at hivlen
    have hsplit : splitOnColon (hexEncode iv ++ ':' :: hexEncode ct) =
        hexEncode iv :: [hexEncode ct] := by
      rw [splitOnColon_append_colon _ (not_mem_colon_hexEncode iv),
        splitOnColon_no_colon (not_mem_colon_hexEncode ct)]
    simp only [decrypt, contains_colon_append, if_true, hsplit]
    simp only [List.headD_cons, List.drop_succ_cons, List.drop_zero]
    rw [if_neg (by
      push_neg
      exact ⟨hexEncode_ne_nil hiv0, hexEncode_ne_nil hne⟩)]
    rw [hexDecodeLenient_hexEncode hivb, hexDecodeLenient_hexEncode hbs]
    rw [if_pos hivlen, hdec]
    exact hde

/-- Witness for C1 at a concrete cipher, serializer and payload. -/
theorem decrypt_encrypt_roundtrip_witness :
    decrypt wCipher wDeser id [0] (encrypt wCipher wSer id [0] wIv 0) = some 0 := by
  refine decrypt_encrypt_roundtrip wCipher wSer wDeser id id [0] wIv 0
    (by decide) (by decide) (by decide) ?_ ?_
  · intro ct h
    have hct : ct = [112] := by simpa [wCipher, wSer] using h.symm
    subst hct
    refine ⟨by decide, by decide, by decide⟩
  · intro h
    simp [wCipher] at h

/-- C3: for every input string, `decrypt` returns a value or `null` and
never raises: a `some` result certifies that every stage of the pipeline
succeeded (nonempty iv and ciphertext segments, 16-byte IV, cipher success,
JSON parse success — so any malformed encoding, wrong key, corrupted
ciphertext or non-JSON plaintext yields `none`); and on the concrete input
`"not-valid-format"` (no `':'`, so the legacy branch) the result is `none`
whenever JSON parsing of its base64 decoding fails. -/
theorem decrypt_fail_closed {α : Type} (c : CipherModel)
    (deser : List Char → Option α) (b64dec : List Char → List Char)
    (key : List Nat) (s : List Char) :
    (decrypt c deser b64dec key s = none ∨
      ∃ v, decrypt c deser b64dec key s = some v) ∧
    (∀ v, decrypt c deser b64dec key s = some v →
      (s.contains ':' = true →
        (splitOnColon s).headD [] ≠ [] ∧
        ((splitOnColon s).drop 1).headD [] ≠ [] ∧
        (hexDecodeLenient ((splitOnColon s).headD [])).length = 16 ∧
        ∃ text, c.dec key (hexDecodeLenient ((splitOnColon s).headD []))
            (hexDecodeLenient (((splitOnColon s).drop 1).headD [])) = some text ∧
          deser text = some v) ∧
      (s.contains ':' = false → deser (b64dec s) = some v)) ∧
    (deser (b64dec ("not-valid-format".data)) = none →
      decrypt c deser b64dec key ("not-valid-format".data) = none) := by
  refine ⟨?_, ?_, ?_⟩
  · cases h : decrypt c deser b64dec key s with
    | none => exact Or.inl rfl
    | some v => exact Or.inr ⟨v, rfl⟩
  · intro v h
    by_cases hc : s.contains ':' = true
    · refine ⟨fun _ => ?_, fun hf => absurd (hc.symm.trans hf) (by decide)⟩
      simp only [decrypt, hc, if_true] at h
      by_cases hg : (splitOnColon s).headD [] = [] ∨
          ((splitOnColon s).drop 1).headD [] = []
      · rw [if_pos hg] at h
        exact absurd h (by simp)
      · rw [if_neg hg] at h
        push_neg at hg
        by_cases hl : (hexDecodeLenient ((splitOnColon s).headD [])).length = 16
        · rw [if_pos hl] at h
          cases hd : c.dec key (hexDecodeLenient ((splitOnColon s).headD []))
              (hexDecodeLenient (((splitOnColon s).drop 1).headD [])) with
          | none => rw [hd] at h; exact absurd h (by simp)
          | some text =>
            rw [hd] at h
            exact ⟨hg.1, hg.2, hl, text, rfl, h⟩
        · rw [if_neg hl] at h
          exact absurd h (by simp)
    · refine ⟨fun ht => absurd ht hc, fun _ => ?_⟩
      simp only [decrypt, hc, if_false] at h
      exact h
  · intro hJ
    have hnc : ("not-valid-format".data).contains ':' = false := by decide
    simp only [decrypt, hnc, Bool.false_eq_true, if_false, hJ]

/-- Witness for C3: the concrete legacy-format input decrypts to `none` at
a concrete deserializer that rejects its decoding. -/
theorem decrypt_fail_closed_witness :
    decrypt wCipher wDeser id [0] ("not-valid-format".data) = none :=
  (decrypt_fail_closed wCipher wDeser id [0] ("not-valid-format".data)).2.2
    (by decide)

/-- C5: `encrypt` never propagates an exception: if the internal cipher
call throws (`enc = none`), `encrypt` returns the base64 encoding of the
JSON-serialized plaintext instead of failing. -/
theorem encrypt_fallback {α : Type} (c : CipherModel) (ser : α → List Char)
    (b64enc : List Char → List Char) (key iv : List Nat) (x : α)
    (h : c.enc key iv (ser x) = none) :
    encrypt c ser b64enc key iv x = b64enc (ser x) := by
  simp only [encrypt, h]

/-- Witness for C5 at a cipher that always throws. -/
theorem encrypt_fallback_witness :
    encrypt wFailCipher wSer id [0] wIv 0 = id (wSer 0) :=
  encrypt_fallback wFailCipher wSer id [0] wIv 0 rfl

/-- C8: an input without the `':'` delimiter is treated as legacy
base64-encoded JSON: `decrypt` base64-decodes and JSON-parses it directly,
and performs no decryption (the result is independent of the cipher and the
key). -/
theorem decrypt_legacy_base64 {α : Type} (c c2 : CipherModel)
    (deser : List Char → Option α) (b64dec : List Char → List Char)
    (key key2 : List Nat) (s : List Char) (h : s.contains ':' = false) :
    decrypt c deser b64dec key s = deser (b64dec s) ∧
    decrypt c deser b64dec key s = decrypt c2 deser b64dec key2 s := by
  have hm : ':' ∉ s := by simpa using h
  constructor <;> simp [decrypt, hm]

/-- Witness for C8 on a concrete colon-free input. -/
theorem decrypt_legacy_base64_witness :
    decrypt wCipher wDeser id [0] ['p'] = wDeser (id ['p']) ∧
    decrypt wCipher wDeser id [0] ['p'] = decrypt wFailCipher wDeser id [1] ['p'] :=
  decrypt_legacy_base64 wCipher wFailCipher wDeser id [0] [1] ['p'] (by decide)

/-- C10: for an input with two or more `':'` delimiters, `decrypt` uses only
the first two segments; trailing segments are silently discarded and the
result equals `decrypt` of the first two segments alone. -/
theorem decrypt_ignores_extra_segments {α : Type} (c : CipherModel)
    (deser : List Char → Option α) (b64dec : List Char → List Char)
    (key : List Nat) (a b rest : List Char) (ha : ':' ∉ a) (hb : ':' ∉ b) :
    decrypt c deser b64dec key (a ++ ':' :: (b ++ ':' :: rest)) =
      decrypt c deser b64dec key (a ++ ':' :: b) := by
  have h1 : splitOnColon (a ++ ':' :: (b ++ ':' :: rest)) =
      a :: b :: splitOnColon rest := by
    rw [splitOnColon_append_colon _ ha, splitOnColon_append_colon _ hb]
  have h2 : splitOnColon (a ++ ':' :: b) = [a, b] := by
    rw [splitOnColon_append_colon _ ha, splitOnColon_no_colon hb]
  simp only [decrypt, contains_colon_append, if_true, h1, h2,
    List.headD_cons, List.drop_succ_cons, List.drop_zero]

/-- Witness for C10 on a concrete three-segment input. -/
theorem decrypt_ignores_extra_segments_witness :
    decrypt wCipher wDeser id [0] (['6'] ++ ':' :: (['a'] ++ ':' :: ['z'])) =
      decrypt wCipher wDeser id [0] (['6'] ++ ':' :: ['a']) :=
  decrypt_ignores_extra_segments wCipher wDeser id [0] ['6'] ['a'] ['z']
    (by decide) (by decide)

/-- C2: the `verify-session` flow, in order: decryption failure →
`InvalidSession`; embedded expiry already past (`<= now`) →
`SessionExpired` with no database access (the outcome is the same for every
store); session row absent → `SessionNotFound`; row's own `expires_at`
past → delete that row and `SessionExpired`; user absent → `UserNotFound`;
otherwise the safe user projection with the row's `expires_at`. -/
theorem verify_session_flow (dec : List Char → Option SessionPayload)
    (st : Store) (now : Int) (env : List Char) :
    (dec env = none → verifySession dec st now env = (.invalidSession, st)) ∧
    (∀ p, dec env = some p → p.expiresAt ≤ now →
      ∀ st2 : Store, verifySession dec st2 now env = (.sessionExpired, st2)) ∧
    (∀ p, dec env = some p → now < p.expiresAt →
      sessionFindById st.sessions p.sessionId = none →
      verifySession dec st now env = (.sessionNotFound, st)) ∧
    (∀ p row, dec env = some p → now < p.expiresAt →
      sessionFindById st.sessions p.sessionId = some row →
      row.expires_at ≤ now →
      verifySession dec st now env = (.sessionExpired,
        { st with sessions := (sessionDeleteById st.sessions p.sessionId).1 })) ∧
    (∀ p row, dec env = some p → now < p.expiresAt →
      sessionFindById st.sessions p.sessionId = some row →
      now < row.expires_at →
      userFindById st.users row.user_id = none →
      verifySession dec st now env = (.userNotFound, st)) ∧
    (∀ p row u, dec env = some p → now < p.expiresAt →
      sessionFindById st.sessions p.sessionId = some row →
      now < row.expires_at →
      userFindById st.users row.user_id = some u →
      verifySession dec st now env =
        (.ok ⟨u.id, u.email, u.first_name, u.last_name⟩ row.expires_at, st)) := by
  refine ⟨?_, ?_, ?_, ?_, ?_, ?_⟩
  · intro h
    simp [verifySession, h]
  · intro p hp hexp st2
    simp [verifySession, hp, hexp]
  · intro p hp hexp hfind
    simp [verifySession, hp, not_le.mpr hexp, hfind]
  · intro p row hp hexp hfind hrow
    simp [verifySession, hp, not_le.mpr hexp, hfind, hrow]
  · intro p row hp hexp hfind hrow hu
    simp [verifySession, hp, not_le.mpr hexp, hfind, not_le.mpr hrow, hu]
  · intro p row u hp hexp hfind hrow hu
    simp [verifySession, hp, not_le.mpr hexp, hfind, not_le.mpr hrow, hu]

/-- Witness for C2: the success branch on a concrete store. -/
theorem verify_session_flow_witness :
    verifySession wDec wStore 0 ['e'] =
      (.ok ⟨wUser.id, wUser.email, wUser.first_name, wUser.last_name⟩
        wRow.expires_at, wStore) :=
  (verify_session_flow wDec wStore 0 ['e']).2.2.2.2.2 ⟨5, 100⟩ wRow wUser
    (by decide) (by decide) (by decide) (by decide) (by decide)

/-- C4 counterexample: at `now = 5` a row with `expires_at = 5` satisfies
`expiresAt <= now`, yet `deleteExpired` (which uses a strict `<`) deletes
nothing and keeps the row — so the claim's "removes exactly the rows whose
`expiresAt <= now`" is false on the code. -/
theorem deleteExpired_le_counterexample :
    c4Row.expires_at ≤ (5 : Int) ∧ (deleteExpired [c4Row] 5).1 = [c4Row] ∧
      (deleteExpired [c4Row] 5).2 = 0 := by
  decide

/-- C4 (amended): `deleteExpired()` removes exactly the rows whose
`expiresAt < now` (strictly earlier), leaves every other row unchanged (the
survivors are a sublist, i.e. in their original order), reports the number
removed, and an immediately repeated call (same `now`) deletes 0 rows. -/
theorem deleteExpired_exact (rows : List SessionRow) (now : Int) :
    (∀ r, r ∈ (deleteExpired rows now).1 ↔ r ∈ rows ∧ ¬ r.expires_at < now) ∧
    (deleteExpired rows now).1.Sublist rows ∧
    (deleteExpired rows now).2 + (deleteExpired rows now).1.length =
      rows.length ∧
    (deleteExpired (deleteExpired rows now).1 now).2 = 0 := by
  refine ⟨?_, ?_, ?_, ?_⟩
  · intro r
    simp [deleteExpired]
  · exact List.filter_sublist rows
  · have h := List.length_eq_length_filter_add (l := rows)
      (fun r => decide (r.expires_at < now))
    simp only [deleteExpired]
    simp only [decide_not] at h ⊢
    omega
  · simp only [deleteExpired, List.length_eq_zero]
    rw [List.filter_eq_nil_iff]
    intro r hr
    have : ¬ r.expires_at < now := by
      have := (List.mem_filter.mp hr).2
      simpa using this
    simpa using this

/-- Witness for C4's amended claim at a concrete table. -/
theorem deleteExpired_exact_witness :
    (c4Row ∈ (deleteExpired [c4Row, wRow] 50).1 ↔
      c4Row ∈ [c4Row, wRow] ∧ ¬ c4Row.expires_at < 50) ∧
    (deleteExpired (deleteExpired [c4Row, wRow] 50).1 50).2 = 0 :=
  ⟨(deleteExpired_exact [c4Row, wRow] 50).1 c4Row,
   (deleteExpired_exact [c4Row, wRow] 50).2.2.2⟩

/-- C6: `verifyPassword` accepts the hash/salt pair produced by
`hashPassword` for the same password, and (under the salt-collision-freeness
of PBKDF2-SHA512 for this password, the hypothesis `hinj`) hashing the same
password with a different freshly generated salt yields a different hash. -/
theorem hashPassword_verify_and_salt (pbkdf2 : List Char → List Char → List Char)
    (salt salt2 password : List Char)
    (hinj : salt ≠ salt2 → pbkdf2 password salt ≠ pbkdf2 password salt2) :
    verifyPassword pbkdf2 password (hashPassword pbkdf2 salt password).1
        (hashPassword pbkdf2 salt password).2 = true ∧
    (salt ≠ salt2 →
      (hashPassword pbkdf2 salt password).1 ≠
        (hashPassword pbkdf2 salt2 password).1) := by
  refine ⟨?_, fun h => hinj h⟩
  simp [verifyPassword, hashPassword]

/-- Witness for C6 at a concrete PBKDF2 instance and two distinct salts. -/
theorem hashPassword_verify_and_salt_witness :
    verifyPassword wPbkdf2 ['w'] (hashPassword wPbkdf2 ['s'] ['w']).1
        (hashPassword wPbkdf2 ['s'] ['w']).2 = true ∧
    (['s'] ≠ ['t'] →
      (hashPassword wPbkdf2 ['s'] ['w']).1 ≠ (hashPassword wPbkdf2 ['t'] ['w']).1) :=
  hashPassword_verify_and_salt wPbkdf2 ['s'] ['t'] ['w'] (by decide)

/-- C7: `logout` is fail-open and idempotent: an undecryptable envelope
responds success with the store untouched; otherwise the session row with
the embedded id is deleted and the response is success whether or not a row
existed; deleting a non-existent id deletes 0 rows and changes nothing;
running `logout` again on the resulting store changes nothing; and the
response is success in every case. -/
theorem logout_fail_open_idempotent (dec : List Char → Option SessionPayload)
    (st : Store) (env : List Char) :
    (dec env = none → logout dec st env = (.success, st)) ∧
    (∀ p, dec env = some p → logout dec st env =
      (.success, { st with sessions := (sessionDeleteById st.sessions p.sessionId).1 })) ∧
    (∀ sid, sessionFindById st.sessions sid = none →
      (sessionDeleteById st.sessions sid).2 = 0 ∧
      (sessionDeleteById st.sessions sid).1 = st.sessions) ∧
    logout dec (logout dec st env).2 env = logout dec st env ∧
    (logout dec st env).1 = .success := by
  refine ⟨?_, ?_, ?_, ?_, ?_⟩
  · intro h
    simp [logout, h]
  · intro p hp
    simp [logout, hp]
  · intro sid hfind
    have habs : ∀ r ∈ st.sessions, ¬ (r.id = sid) := by
      intro r hr hid
      have := List.find?_eq_none.mp hfind r hr
      simp [hid] at this
    constructor
    · simp only [sessionDeleteById, List.length_eq_zero]
      rw [List.filter_eq_nil_iff]
      intro r hr
      simpa using habs r hr
    · simp only [sessionDeleteById]
      apply List.filter_eq_self.mpr
      intro r hr
      simpa using habs r hr
  · cases h : dec env with
    | none => simp [logout, h]
    | some p => simp [logout, h, sessionDeleteById, List.filter_filter]
  · cases h : dec env with
    | none => simp [logout, h]
    | some p => simp [logout, h]

/-- Witness for C7: an undecryptable envelope leaves the concrete store
untouched and responds success. -/
theorem logout_fail_open_idempotent_witness :
    logout wDec wStore ['z'] = (.success, wStore) :=
  (logout_fail_open_idempotent wDec wStore ['z']).1 (by decide)

/-- C9: a successful login response consists of the safe user projection
(the user id only), the JWT signed over the id, the encrypted session
envelope and the session expiry — every component is an expression in the
user's id and the session data, so the password hash and salt appear
nowhere in it. -/
theorem login_safe_response (pbkdf2 : List Char → List Char → List Char)
    (jwtSign : Nat → List Char) (c : CipherModel)
    (ser : SessionPayload → List Char) (b64enc : List Char → List Char)
    (key iv : List Nat) (st : Store) (now : Int) (email password : List Char)
    (r : LoginResponse) (st2 : Store)
    (h : login pbkdf2 jwtSign c ser b64enc key iv st now email password =
      (.ok r, st2)) :
    ∃ u, userFindByEmail st.users email = some u ∧
      verifyPassword pbkdf2 password u.password_hash u.salt = true ∧
      r = ⟨u.id, jwtSign u.id,
        encrypt c ser b64enc key iv ⟨st.nextSessionId, now + sevenDaysMs⟩,
        now + sevenDaysMs⟩ := by
  by_cases hg : email = [] ∨ password = []
  · rw [login, if_pos hg] at h
    exact absurd h (by simp)
  · rw [login, if_neg hg] at h
    cases hf : userFindByEmail st.users email with
    | none => rw [hf] at h; exact absurd h (by simp)
    | some u =>
      rw [hf] at h
      dsimp only at h
      by_cases hv : verifyPassword pbkdf2 password u.password_hash u.salt = true
      · rw [if_pos hv] at h
        simp only [sessionCreate, Prod.mk.injEq, LoginResult.ok.injEq] at h
        exact ⟨u, rfl, hv, h.1.symm⟩
      · rw [if_neg hv] at h
        exact absurd h (by simp)

/-- Witness for C9 at a concrete successful login. -/
theorem login_safe_response_witness :
    ∃ u, userFindByEmail wStore.users ['u'] = some u ∧
      verifyPassword wPbkdf2 ['w'] u.password_hash u.salt = true ∧
      wResp = ⟨u.id, wJwt u.id,
        encrypt wCipher wSerP id [0] wIv ⟨wStore.nextSessionId, 0 + sevenDaysMs⟩,
        0 + sevenDaysMs⟩ :=
  login_safe_response wPbkdf2 wJwt wCipher wSerP id [0] wIv wStore 0 ['u'] ['w']
    wResp wStAfter (by decide)

end NodeApi
